import Mathlib

/-
  Verification development for a minimal in-memory relational database
  engine (tables with typed columns, a primary key, CRUD operations, and
  a flat WHERE-condition language).

  The definitions below are a shallow embedding of `src/database.py`:
  Python values (int / float / str / None) become the inductive `Value`,
  Python dict rows become association lists in column order, exceptions
  become an explicit `Except DbError` result, and statements that mutate
  the table in place become state-passing functions returning the result
  together with the new table state.

  Modelling notes (places where the host language is approximated):
  * Python `float` is modelled as an exact fraction `PyFloat` (an integer
    numerator with a natural-number denominator).  Rounding of decimal
    literals, `inf` and `nan` are not modelled: `pyParseFloat` simply
    fails on `inf`/`nan` spellings.  No claim below depends on float
    rounding, and no witness evaluates a float.
  * `str.strip()` strips the ASCII whitespace characters only.
  * `int(...)`/`float(...)` accept base-10 literals with the underscore
    rules of Python 3; unicode digits are not modelled.
  * Python's shortest-round-trip `repr` of floats is approximated by
    exact decimal rendering in `floatRepr` (used only when a float value
    is stringified for LIKE matching, which no claim exercises).
  * The regular-expression fragment reachable from the LIKE translation
    (`%` becomes `.*`, `_` becomes `.`) is embedded directly: literal
    characters, `.`, and a postfix `*`.  Regex metacharacters outside
    that fragment (parentheses, brackets, `+`, `?`, `|`, backslash,
    anchors) are mapped to the error `DbError.regexError`; Python's
    newline special-casing of `.` and `$` is not modelled.  No claim or
    witness uses those characters.
-/

deriving instance DecidableEq for Except

namespace PesapalDb

/-- Character with the given code point (used to avoid quote characters in
string literals). -/
def rchar (n : Nat) : Char := Char.ofNat n

/-- ASCII whitespace characters stripped by `str.strip()`. -/
def wsChars : List Char := [rchar 32, rchar 9, rchar 10, rchar 11, rchar 12, rchar 13]

/-- The quote characters stripped from literals: apostrophe and double quote,
mirroring `.strip("'\"")`. -/
def quoteChars : List Char := [rchar 39, rchar 34]

/-- Remove the characters of `cs` from both ends of `s` (Python `str.strip(chars)`). -/
def stripChars (cs : List Char) (s : List Char) : List Char :=
  ((s.dropWhile (cs.contains ·)).reverse.dropWhile (cs.contains ·)).reverse

/-- Python `str.strip()` (whitespace). -/
def pyStrip (s : String) : String := ⟨stripChars wsChars s.data⟩

/-- Python `str.strip("'\"")` applied to an operand. -/
def stripQuotes (s : String) : String := ⟨stripChars quoteChars s.data⟩

/-- Does `pre` occur at the head of `s`? -/
def prefixMatch : List Char → List Char → Bool
  | [], _ => true
  | _ :: _, [] => false
  | a :: as, b :: bs => a == b && prefixMatch as bs

/-- Does `sub` occur anywhere inside `s`? (Python `sub in s`.) -/
def containsL (sub : List Char) : List Char → Bool
  | [] => sub.isEmpty
  | c :: rest => prefixMatch sub (c :: rest) || containsL sub rest

/-- Substring test on strings. -/
def containsS (sub s : String) : Bool := containsL sub.data s.data

/-- Splitting worker: scans left to right, breaking at every (non-overlapping,
leftmost) occurrence of `sep`, exactly like Python `str.split(sep)` for a
non-empty separator.  `fuel` bounds the recursion; callers pass at least the
length of the string, which suffices because every step consumes a character. -/
def splitAux (sep : List Char) : Nat → List Char → List Char → List (List Char)
  | _, acc, [] => [acc.reverse]
  | 0, acc, s => [acc.reverse ++ s]
  | fuel + 1, acc, c :: rest =>
    if prefixMatch sep (c :: rest) then
      acc.reverse :: splitAux sep fuel [] (List.drop sep.length (c :: rest))
    else
      splitAux sep fuel (c :: acc) rest

/-- Python `s.split(sep)` for a non-empty separator. -/
def pySplit (sep s : String) : List String :=
  (splitAux sep.data (s.data.length + 1) [] s.data).map (fun l => ⟨l⟩)

/-- Decimal digits of a natural number, accumulator style (fuel ≥ number). -/
def natToCharsAux : Nat → Nat → List Char → List Char
  | 0, _, acc => acc
  | fuel + 1, n, acc =>
    let acc2 := rchar (48 + n % 10) :: acc
    if n < 10 then acc2 else natToCharsAux fuel (n / 10) acc2

/-- Decimal rendering of a natural number. -/
def natToStr (n : Nat) : String := ⟨natToCharsAux (n + 1) n []⟩

/-- Python `str` of an integer. -/
def intToStr : Int → String
  | .ofNat n => natToStr n
  | .negSucc n => ⟨rchar 45 :: (natToStr (n + 1)).data⟩

/-- Model of a Python float: an exact fraction `num / den`.  Values built by
the embedding always have a positive power-of-ten denominator. -/
structure PyFloat where
  num : Int
  den : Nat
deriving DecidableEq

/-- A Python runtime value as stored in a row: `int`, `float`, `str` or `None`. -/
inductive Value
  | int (n : Int)
  | float (f : PyFloat)
  | str (s : String)
  | null
deriving DecidableEq

/-- `10 ^ k`. -/
def pow10 : Nat → Nat
  | 0 => 1
  | n + 1 => 10 * pow10 n

/-- Smallest `k` (starting from `start`, at most `fuel` more) with `den ∣ 10 ^ k`. -/
def findScaleAux (den : Nat) : Nat → Nat → Option Nat
  | 0, _ => none
  | fuel + 1, k => if pow10 k % den == 0 then some k else findScaleAux den fuel (k + 1)

/-- Left-pad with zeros to `k` characters. -/
def padZeros (k : Nat) (s : List Char) : List Char :=
  List.replicate (k - s.length) (rchar 48) ++ s

/-- Drop trailing zero characters. -/
def trimZeros (s : List Char) : List Char :=
  (s.reverse.dropWhile (· == rchar 48)).reverse

/-- Approximate Python `str` of a float: exact decimal expansion with at least
one fractional digit (`str(2.0) = "2.0"`, `str(2.5) = "2.5"`).  Python's
shortest-round-trip repr is not modelled; no claim depends on this rendering. -/
def floatRepr (f : PyFloat) : String :=
  if f.den == 0 then ⟨[rchar 105, rchar 110, rchar 102]⟩
  else
    match findScaleAux f.den 40 0 with
    | none => ⟨[rchar 102, rchar 108, rchar 111, rchar 97, rchar 116]⟩
    | some k =>
      let scaled := f.num.natAbs * (pow10 k / f.den)
      let ip := scaled / pow10 k
      let fp := scaled % pow10 k
      let frac :=
        if k == 0 then [rchar 48]
        else
          match trimZeros (padZeros k (natToStr fp).data) with
          | [] => [rchar 48]
          | l => l
      let body := (natToStr ip).data ++ rchar 46 :: frac
      ⟨if f.num < 0 then rchar 45 :: body else body⟩

/-- Python `str(value)`, as used by LIKE matching. -/
def pyStr : Value → String
  | .int n => intToStr n
  | .float f => floatRepr f
  | .str s => s
  | .null => "None"

/-- ASCII digit test. -/
def isDigitC (c : Char) : Bool := 48 ≤ c.toNat && c.toNat ≤ 57

/-- Value of an ASCII digit. -/
def digitVal (c : Char) : Nat := c.toNat - 48

/-- Consume a run of digits, allowing single underscores between digits
(Python 3 numeric-literal rule).  Returns the accumulated value, the number
of digits consumed, and the unconsumed remainder.  Stops (without failing)
at the first character that cannot extend the run. -/
def digitRunAux : Nat → Nat × Nat → List Char → (Nat × Nat) × List Char
  | 0, st, s => (st, s)
  | fuel + 1, (acc, cnt), s =>
    match s with
    | [] => ((acc, cnt), [])
    | c :: rest =>
      if isDigitC c then digitRunAux fuel (acc * 10 + digitVal c, cnt + 1) rest
      else
        if c == rchar 95 then
          match rest with
          | d :: rest2 =>
            if isDigitC d then digitRunAux fuel (acc * 10 + digitVal d, cnt + 1) rest2
            else ((acc, cnt), c :: rest)
          | [] => ((acc, cnt), c :: rest)
        else ((acc, cnt), c :: rest)

/-- Consume a digit run starting at the head of `s`. -/
def digitRun (s : List Char) : (Nat × Nat) × List Char :=
  digitRunAux (s.length + 1) (0, 0) s

/-- Consume an optional leading sign, returning `1` or `-1` and the rest. -/
def readSign : List Char → Int × List Char
  | [] => (1, [])
  | c :: rest =>
    if c == rchar 43 then (1, rest)
    else if c == rchar 45 then (-1, rest)
    else (1, c :: rest)

/-- Python `int(s)` on a string: optional surrounding whitespace, optional
sign, then base-10 digits with Python's underscore rule.  `none` models the
`ValueError` raised on any other input. -/
def pyParseInt (s : String) : Option Int :=
  let t := stripChars wsChars s.data
  let (sign, t2) := readSign t
  match t2 with
  | [] => none
  | c :: _ =>
    if isDigitC c then
      let ((v, cnt), rest) := digitRun t2
      if rest.isEmpty && cnt > 0 then some (sign * (v : Int)) else none
    else none

/-- Python `float(s)` on a string, restricted to finite decimal literals:
optional whitespace and sign, an integer part and/or a fractional part, and
an optional exponent.  `inf`/`nan` spellings are not modelled (they fail). -/
def pyParseFloat (s : String) : Option PyFloat :=
  let t := stripChars wsChars s.data
  let (sign, t2) := readSign t
  -- integer part (optional)
  let (ipart, r1) :=
    match t2 with
    | c :: _ =>
      if isDigitC c then
        let ((v, cnt), rest) := digitRun t2
        (some (v, cnt), rest)
      else (none, t2)
    | [] => (none, t2)
  -- fractional part, present iff a dot follows (digits may be empty)
  let (fpart, r2) :=
    match r1 with
    | c :: rest =>
      if c == rchar 46 then
        match rest with
        | d :: _ =>
          if isDigitC d then
            let ((v, cnt), rest2) := digitRun rest
            (some (v, cnt), rest2)
          else (some (0, 0), rest)
        | [] => (some ((0 : Nat), (0 : Nat)), ([] : List Char))
      else (none, r1)
    | [] => (none, ([] : List Char))
  -- at least one digit must appear in the mantissa
  let mantissaOk :=
    match ipart, fpart with
    | some _, _ => true
    | none, some (_, cnt) => cnt > 0
    | none, none => false
  if !mantissaOk then none
  else
    -- optional exponent, after which nothing may remain
    let expRes : Option Int :=
      match r2 with
      | [] => some 0
      | c :: rest =>
        if c == rchar 101 || c == rchar 69 then
          let (esign, r3) := readSign rest
          match r3 with
          | d :: _ =>
            if isDigitC d then
              let ((v, _), r4) := digitRun r3
              if r4.isEmpty then some (esign * (v : Int)) else none
            else none
          | [] => none
        else none
    match expRes with
    | none => none
    | some e =>
      let iv := match ipart with | some (v, _) => v | none => 0
      let (fv, fc) := match fpart with | some p => p | none => (0, 0)
      let num0 : Int := sign * ((iv * pow10 fc + fv : Nat) : Int)
      let den0 : Nat := pow10 fc
      if 0 ≤ e then some ⟨num0 * (pow10 e.toNat : Nat), den0⟩
      else some ⟨num0, den0 * pow10 (-e).toNat⟩

/-- The distinct failure modes of the engine.  The first five model the
`ValueError`s raised explicitly in `database.py` (one constructor per raise
site); `pyTypeError` models the host-level `TypeError` Python raises when an
ordering comparison meets operands of incompatible kinds; `regexError` models
`re.error` (and stands in for regex constructs outside the embedded fragment). -/
inductive DbError
  | unknownColumn (name : String)
  | typeMismatch (col : String)
  | uniqueViolation
  | invalidCondition (cond : String)
  | invalidLike (cond : String)
  | pyTypeError
  | regexError
deriving DecidableEq

/-- The six comparison operators of the condition language. -/
inductive CmpOp
  | ge | le | ne | eq | gt | lt
deriving DecidableEq

/-- Surface spelling of each operator. -/
def opSym : CmpOp → String
  | .ge => ">="
  | .le => "<="
  | .ne => "<>"
  | .eq => "="
  | .gt => ">"
  | .lt => "<"

/-- The operator padded with single spaces, the form searched for in a
condition (`f' {op} '`). -/
def opPad (op : CmpOp) : String := " " ++ opSym op ++ " "

/-- The priority order in which operators are tried:
`['>=', '<=', '<>', '=', '>', '<']`. -/
def opPriority : List CmpOp := [.ge, .le, .ne, .eq, .gt, .lt]

/-- Three-way comparison of integers. -/
def cmp3 (a b : Int) : Ordering :=
  if a < b then .lt else if a = b then .eq else .gt

/-- Lexicographic three-way comparison of character lists by code point
(Python string ordering). -/
def lexCmp : List Char → List Char → Ordering
  | [], [] => .eq
  | [], _ :: _ => .lt
  | _ :: _, [] => .gt
  | a :: as, b :: bs =>
    if a.toNat < b.toNat then .lt
    else if a = b then lexCmp as bs
    else .gt

/-- Which comparison outcomes make each operator true. -/
def ordHolds : CmpOp → Ordering → Bool
  | .eq, .eq => true
  | .eq, _ => false
  | .ne, .eq => false
  | .ne, _ => true
  | .gt, .gt => true
  | .gt, _ => false
  | .lt, .lt => true
  | .lt, _ => false
  | .ge, .lt => false
  | .ge, _ => true
  | .le, .gt => false
  | .le, _ => true

/-- Python `==` on the values that can meet in a comparison: numbers compare
numerically (also across int/float), strings compare as text, `None` equals
only `None`, and values of different kinds are unequal (no error). -/
def pyEq : Value → Value → Bool
  | .null, .null => true
  | .int n, .int m => n == m
  | .int n, .float f => n * (f.den : Int) == f.num
  | .float f, .int n => f.num == n * (f.den : Int)
  | .float f, .float g => f.num * (g.den : Int) == g.num * (f.den : Int)
  | .str s, .str t => s == t
  | _, _ => false

/-- Python ordering (`<`, `>`, `<=`, `>=`) on values: defined for
number/number and string/string pairs, `none` models the `TypeError` raised
for any other combination (in particular whenever one side is `None`). -/
def pyRichCmp : Value → Value → Option Ordering
  | .int n, .int m => some (cmp3 n m)
  | .int n, .float f => some (cmp3 (n * (f.den : Int)) f.num)
  | .float f, .int n => some (cmp3 f.num (n * (f.den : Int)))
  | .float f, .float g => some (cmp3 (f.num * (g.den : Int)) (g.num * (f.den : Int)))
  | .str s, .str t => some (lexCmp s.data t.data)
  | _, _ => none

/-- The `# Evaluate` block of `_evaluate_condition`: apply the operator to
the row value and the parsed literal, with equality never failing and the
four ordering operators raising `TypeError` on incompatible kinds. -/
def pyCompareOp (op : CmpOp) (a b : Value) : Except DbError Bool :=
  match op with
  | .eq => .ok (pyEq a b)
  | .ne => .ok (!pyEq a b)
  | _ =>
    match pyRichCmp a b with
    | none => .error .pyTypeError
    | some o => .ok (ordHolds op o)

/-- The `# Parse value` block of `_evaluate_condition`: if the row value is an
int the literal is parsed with `int(...)`, if a float with `float(...)`; on a
parse failure or a non-numeric row value the raw text is kept. -/
def parseCompareValue (rowValue : Value) (s : String) : Value :=
  match rowValue with
  | .int _ =>
    match pyParseInt s with
    | some n => .int n
    | none => .str s
  | .float _ =>
    match pyParseFloat s with
    | some f => .float f
    | none => .str s
  | _ => .str s

/-- Element of the regex fragment reachable from the LIKE translation:
a literal character, `.` (any character), or either of those starred. -/
inductive RElem
  | lit (c : Char)
  | anyc
  | starLit (c : Char)
  | starAny
deriving DecidableEq

/-- `pattern.replace('%', '.*').replace('_', '.')`: the two replacements are
equivalent to this single character-wise pass because the replacement texts
contain neither `%` nor `_`. -/
def likeTranslate (p : List Char) : List Char :=
  (p.map (fun c =>
    if c == rchar 37 then [rchar 46, rchar 42]
    else if c == rchar 95 then [rchar 46]
    else [c])).flatten

/-- Regex metacharacters outside the embedded fragment; their appearance maps
to `DbError.regexError` (see the modelling notes at the top of the file). -/
def regexMeta : List Char :=
  [rchar 40, rchar 41, rchar 91, rchar 93, rchar 123, rchar 125,
   rchar 43, rchar 63, rchar 124, rchar 92, rchar 94, rchar 36]

/-- Parse the translated pattern as a regex of the embedded fragment.
A leading `*` (including the `**` produced by a pattern ending `%*`) is a
"nothing to repeat" error, as in `re`. -/
def parseRegex : List Char → Option (List RElem)
  | [] => some []
  | c :: rest =>
    if c == rchar 42 || regexMeta.contains c then none
    else
      match rest with
      | r1 :: rest2 =>
        if r1 == rchar 42 then
          (parseRegex rest2).map
            (fun es => (if c == rchar 46 then RElem.starAny else RElem.starLit c) :: es)
        else
          (parseRegex (r1 :: rest2)).map
            (fun es => (if c == rchar 46 then RElem.anyc else RElem.lit c) :: es)
      | [] => some [if c == rchar 46 then RElem.anyc else RElem.lit c]

/-- Anchored regex matching of the embedded fragment, with fuel (every call
decreases `es.length + s.length`, so the initial fuel below suffices). -/
def rmatchF : Nat → List RElem → List Char → Bool
  | 0, _, _ => false
  | _ + 1, [], s => s.isEmpty
  | fuel + 1, RElem.lit c :: es, s =>
    match s with
    | [] => false
    | x :: xs => c == x && rmatchF fuel es xs
  | fuel + 1, RElem.anyc :: es, s =>
    match s with
    | [] => false
    | _ :: xs => rmatchF fuel es xs
  | fuel + 1, RElem.starLit c :: es, s =>
    rmatchF fuel es s ||
      (match s with
       | [] => false
       | x :: xs => c == x && rmatchF fuel (RElem.starLit c :: es) xs)
  | fuel + 1, RElem.starAny :: es, s =>
    rmatchF fuel es s ||
      (match s with
       | [] => false
       | _ :: xs => rmatchF fuel (RElem.starAny :: es) xs)

/-- `re.match(f"^{regex_pattern}$", value)`: whole-string matching. -/
def rmatch (es : List RElem) (s : List Char) : Bool :=
  rmatchF (es.length + s.length + 1) es s

/-- A row: a mapping from column name to value, modelled as an association
list in insertion (column-declaration) order, as a Python dict preserves. -/
abbrev Row := List (String × Value)

/-- Dict lookup: the value at the first matching key, if any
(models both `k in d` and `d[k]`; keys are unique in every dict the code
builds). -/
def lookupV (values : Row) (k : String) : Option Value :=
  (values.find? (fun p => p.1 == k)).map (·.2)

/-- `row[k]` where the key is known to be present; absent keys (impossible
through the public operations) default to `None` rather than `KeyError`. -/
def rowGet (r : Row) (k : String) : Value :=
  (lookupV r k).getD Value.null

/-- The primary-key value of a row. -/
def rowPk (pkName : String) (r : Row) : Value := rowGet r pkName

/-- The operator loop of `_evaluate_condition`: the first operator (in
priority order) whose space-padded form occurs in the condition, together
with the result of splitting the condition on that padded form. -/
def findOp (cond : String) : List CmpOp → Option (CmpOp × List String)
  | [] => none
  | op :: rest =>
    if containsS (opPad op) cond then some (op, pySplit (opPad op) cond)
    else findOp cond rest

/-- `Table._evaluate_condition`: evaluate one atomic condition against a row.
The LIKE branch fires whenever the string ` LIKE ` occurs; otherwise the
first matching comparison operator is applied; otherwise the condition is
malformed. -/
def evaluate_condition (row : Row) (condition : String) : Except DbError Bool :=
  let cond := pyStrip condition
  if containsS " LIKE " cond then
    match pySplit " LIKE " cond with
    | [a, b] =>
      let colName := pyStrip a
      let pattern := stripQuotes (pyStrip b)
      match lookupV row colName with
      | none => .error (.unknownColumn colName)
      | some v =>
        match parseRegex (likeTranslate pattern.data) with
        | none => .error .regexError
        | some es => .ok (rmatch es (pyStr v).data)
    | _ => .error (.invalidLike cond)
  else
    match findOp cond opPriority with
    | some (op, [a, b]) =>
      let colName := pyStrip a
      let valueStr := stripQuotes (pyStrip b)
      match lookupV row colName with
      | none => .error (.unknownColumn colName)
      | some rowValue => pyCompareOp op rowValue (parseCompareValue rowValue valueStr)
    | some (_, _) => .error (.invalidCondition cond)
    | none => .error (.invalidCondition cond)

/-- `where_clause.split(' AND ')` with each part stripped. -/
def splitAnd (w : String) : List String := (pySplit " AND " w).map pyStrip

/-- Conjunction of atomic conditions, short-circuiting at the first `false`
(later conditions are then not evaluated, so their errors are not raised). -/
def evalConds (row : Row) : List String → Except DbError Bool
  | [] => .ok true
  | c :: cs =>
    match evaluate_condition row c with
    | .error e => .error e
    | .ok true => evalConds row cs
    | .ok false => .ok false

/-- `Table._evaluate_where`: split on ` AND ` and require every part. -/
def evaluate_where (row : Row) (whereClause : String) : Except DbError Bool :=
  evalConds row (splitAnd whereClause)

/-- The three supported column types. -/
inductive DType
  | integer
  | text
  | real
deriving DecidableEq

/-- A column definition: name, declared type, primary-key flag. -/
structure Column where
  name : String
  data_type : DType
  is_primary_key : Bool
deriving DecidableEq

/-- A table: schema, primary-key column name, stored rows in insertion
order, and the auto-increment counter `next_id`. -/
structure Table where
  name : String
  columns : List Column
  primary_key : String
  rows : List Row
  next_id : Int
deriving DecidableEq

/-- `column_map.get(name)` restricted to the declared type (first declared
column of that name; names are unique in every table the engine creates). -/
def colType (t : Table) (colName : String) : Option DType :=
  (t.columns.find? (fun col => col.name == colName)).map (·.data_type)

/-- The isinstance checks of `_validate_types`: which non-null value kinds
each declared type accepts. -/
def typeOk : DType → Value → Bool
  | .integer, .int _ => true
  | .real, .int _ => true
  | .real, .float _ => true
  | .text, .str _ => true
  | _, _ => false

/-- `Table._validate_types`: walk the supplied pairs in order; `None` always
passes, unknown columns are skipped, and the first mismatch raises naming
the offending column. -/
def validate_types (t : Table) : List (String × Value) → Except DbError Unit
  | [] => .ok ()
  | (k, v) :: rest =>
    match v with
    | .null => validate_types t rest
    | _ =>
      match colType t k with
      | none => validate_types t rest
      | some dt =>
        if typeOk dt v then validate_types t rest
        else .error (.typeMismatch k)

/-- The per-column value chosen by `insert`: the supplied value if present,
else `next_id` for the primary-key column and `None` otherwise. -/
def insertVal (t : Table) (values : Row) (col : Column) : Value :=
  if col.is_primary_key then
    match lookupV values col.name with
    | none => .int t.next_id
    | some v => v
  else
    match lookupV values col.name with
    | none => .null
    | some v => v

/-- The fully materialized row built by `insert`, in declaration order. -/
def mkInsertRow (t : Table) (values : Row) : Row :=
  t.columns.map (fun col => (col.name, insertVal t values col))

/-- `Table.insert`: materialize, type-check, check primary-key uniqueness,
then append and advance `next_id`.  A raise leaves the table unchanged. -/
def insert (t : Table) (values : Row) : Except DbError Value × Table :=
  match validate_types t (mkInsertRow t values) with
  | .error e => (.error e, t)
  | .ok () =>
    if t.rows.any (fun r => pyEq (rowPk t.primary_key r)
        (rowPk t.primary_key (mkInsertRow t values))) then
      (.error .uniqueViolation, t)
    else
      (.ok (rowPk t.primary_key (mkInsertRow t values)),
       { t with rows := t.rows ++ [mkInsertRow t values], next_id := t.next_id + 1 })

/-- The requested-column check of `select`: the first requested column not in
the schema, if any. -/
def firstInvalid (t : Table) (cols : List String) : Option String :=
  cols.find? (fun c => (t.columns.find? (fun col => col.name == c)).isNone)

/-- First occurrence of each name, in order: the key order of the dict
comprehension `{col: row[col] for col in columns}`. -/
def dedupFirst : List String → List String
  | [] => []
  | c :: rest => c :: (dedupFirst rest).filter (fun d => !(d == c))

/-- Projection of one row onto the requested columns. -/
def projectRow (r : Row) (cols : List String) : Row :=
  (dedupFirst cols).map (fun c => (c, rowGet r c))

/-- The filtering list comprehension of `select`: keep rows whose condition
holds, failing at the first row whose evaluation raises. -/
def filterRows (w : String) : List Row → Except DbError (List Row)
  | [] => .ok []
  | r :: rs =>
    match evaluate_where r w with
    | .error e => .error e
    | .ok b =>
      match filterRows w rs with
      | .error e => .error e
      | .ok rest => .ok (if b then r :: rest else rest)

/-- The column-list default of `select`: all declared columns when none are
requested. -/
def resolveCols (t : Table) (colsOpt : Option (List String)) : List String :=
  match colsOpt with
  | none => t.columns.map (·.name)
  | some cs => cs

/-- `Table.select`: default the column list, validate it, filter (note the
truthiness test `if where_clause:` — an empty string means no filtering),
and project. -/
def select (t : Table) (colsOpt : Option (List String)) (whereClause : Option String) :
    Except DbError (List Row) :=
  match firstInvalid t (resolveCols t colsOpt) with
  | some c => .error (.unknownColumn c)
  | none =>
    match (match whereClause with
           | none => Except.ok t.rows
           | some w => if w = "" then Except.ok t.rows else filterRows w t.rows) with
    | .error e => .error e
    | .ok filtered => .ok (filtered.map (fun r => projectRow r (resolveCols t colsOpt)))

/-- The first key of `values` naming no declared column, if any
(the column-name loop of `update`). -/
def findUndeclared (t : Table) (values : Row) : Option String :=
  (values.find? (fun p => (t.columns.find? (fun col => col.name == p.1)).isNone)).map (·.1)

/-- `row.update(values)`: overwrite the values of the named keys in place,
preserving key order (every key of `values` already occurs in the row when
this is reached). -/
def rowUpdate (r : Row) (values : Row) : Row :=
  r.map (fun p => (p.1, (lookupV values p.1).getD p.2))

/-- The row loop of `update`: walk the stored rows, updating matches in
place.  An evaluation error aborts the walk, leaving the rows already walked
in their (possibly updated) state — Python mutates as it goes. -/
def updateRows (values : Row) (whereClause : Option String) :
    List Row → Except DbError Nat × List Row
  | [] => (.ok 0, [])
  | r :: rs =>
    let matched : Except DbError Bool :=
      match whereClause with
      | none => .ok true
      | some w => evaluate_where r w
    match matched with
    | .error e => (.error e, r :: rs)
    | .ok true =>
      let (res, rs2) := updateRows values whereClause rs
      (res.map (· + 1), rowUpdate r values :: rs2)
    | .ok false =>
      let (res, rs2) := updateRows values whereClause rs
      (res, r :: rs2)

/-- `Table.update`: validate column names, validate types, then walk the
rows.  Validation failures leave the table unchanged; a failure during the
walk keeps the mutations already made. -/
def update (t : Table) (values : Row) (whereClause : Option String) :
    Except DbError Nat × Table :=
  match findUndeclared t values with
  | some c => (.error (.unknownColumn c), t)
  | none =>
    match validate_types t values with
    | .error e => (.error e, t)
    | .ok () =>
      let (res, rows2) := updateRows values whereClause t.rows
      (res, { t with rows := rows2 })

/-- The keep-list comprehension of `delete` (rows whose condition is false),
failing at the first row whose evaluation raises. -/
def keepRows (w : String) : List Row → Except DbError (List Row)
  | [] => .ok []
  | r :: rs =>
    match evaluate_where r w with
    | .error e => .error e
    | .ok b =>
      match keepRows w rs with
      | .error e => .error e
      | .ok rest => .ok (if b then rest else r :: rest)

/-- `Table.delete`: no condition removes every row and returns the prior
count; otherwise the keep list is built in full before being installed, so
an evaluation error leaves the table unchanged. -/
def delete (t : Table) (whereClause : Option String) : Except DbError Nat × Table :=
  match whereClause with
  | none => (.ok t.rows.length, { t with rows := [] })
  | some w =>
    match keepRows w t.rows with
    | .error e => (.error e, t)
    | .ok kept => (.ok (t.rows.length - kept.length), { t with rows := kept })

/-- A sequence of insert calls, applied left to right (failed inserts leave
the table unchanged and the sequence continues). -/
def insertSeq (t : Table) : List Row → Table
  | [] => t
  | vs :: rest => insertSeq (insert t vs).2 rest

/-- The schema consistency every table built by `Database.create_table`
enjoys: distinct column names, the primary-key name declared, and the
primary-key flag set on exactly the primary-key column. -/
def ValidSchema (t : Table) : Prop :=
  (t.columns.map (·.name)).Nodup ∧
  t.primary_key ∈ t.columns.map (·.name) ∧
  ∀ col ∈ t.columns, col.is_primary_key = true ↔ col.name = t.primary_key

/-- No two stored rows share a primary-key value (under Python `==`). -/
def NoDupPK (t : Table) : Prop :=
  t.rows.Pairwise (fun a b => pyEq (rowPk t.primary_key a) (rowPk t.primary_key b) = false)

/-- Every stored row has exactly the declared columns, in declaration order
(the row-shape invariant maintained by `insert`). -/
def WellFormedRows (t : Table) : Prop :=
  ∀ r ∈ t.rows, r.map Prod.fst = t.columns.map (·.name)

/-- Outcome of an equality or ordering test whose two sides ended up with
incompatible runtime kinds: `=` is false, `<>` is true, ordering raises the
host-level `TypeError`. -/
def crossKind : CmpOp → Except DbError Bool
  | .eq => .ok false
  | .ne => .ok true
  | _ => .error .pyTypeError

/-- Modelled from the spec (§4.4, comparison conditions, as amended by claim
C4): the literal is parsed by the numeric kind of the row value (int as int,
float as float); a successful numeric parse compares numerically, a text row
value compares lexicographically as raw text, and a failed parse or a null
row value makes `=` false and `<>` true while the ordering operators raise a
host-level `TypeError`. -/
def specCompare (rowVal : Value) (op : CmpOp) (lit : String) : Except DbError Bool :=
  match rowVal with
  | .int n =>
    match pyParseInt lit with
    | some m => .ok (ordHolds op (cmp3 n m))
    | none => crossKind op
  | .float f =>
    match pyParseFloat lit with
    | some g => .ok (ordHolds op (cmp3 (f.num * (g.den : Int)) (g.num * (f.den : Int))))
    | none => crossKind op
  | .str s => .ok (ordHolds op (lexCmp s.data lit.data))
  | .null => crossKind op

/-- A value kind test: is the value a Python `int`? -/
def isIntV : Value → Bool
  | .int _ => true
  | _ => false

/-- A value kind test: is the value a Python `float`? -/
def isFloatV : Value → Bool
  | .float _ => true
  | _ => false

/-- A value kind test: is the value a Python `str`? -/
def isStrV : Value → Bool
  | .str _ => true
  | _ => false

/-- The acceptance rule of claim C5 for one supplied pair: null always
passes; otherwise an INTEGER column takes exactly ints, a REAL column ints
or floats, a TEXT column exactly strings (pairs naming no declared column
are outside the rule and pass untouched). -/
def acceptedPair (t : Table) (p : String × Value) : Prop :=
  p.2 = Value.null ∨ colType t p.1 = none ∨
  (colType t p.1 = some .integer ∧ isIntV p.2 = true) ∨
  (colType t p.1 = some .real ∧ (isIntV p.2 || isFloatV p.2) = true) ∨
  (colType t p.1 = some .text ∧ isStrV p.2 = true)

instance (t : Table) (p : String × Value) : Decidable (acceptedPair t p) := by
  unfold acceptedPair
  infer_instance

/-! ### Concrete tables used by witnesses and counterexamples -/

/-- Two-column table (INTEGER primary key `id`, TEXT `name`) holding one row
with primary key `1`. -/
def exT1 : Table :=
  ⟨"t1", [⟨"id", .integer, true⟩, ⟨"name", .text, false⟩], "id",
   [[("id", .int 1), ("name", .str "a")]], 2⟩

/-- Table with an INTEGER column `n` that is `10` in the first row and null
in the second. -/
def exT2 : Table :=
  ⟨"t2", [⟨"id", .integer, true⟩, ⟨"n", .integer, false⟩], "id",
   [[("id", .int 1), ("n", .int 10)], [("id", .int 2), ("n", .null)]], 3⟩

/-- Table for the conjunction claims: `age` and `b` INTEGER, `b` null in the
second row. -/
def exT8 : Table :=
  ⟨"t8", [⟨"id", .integer, true⟩, ⟨"age", .integer, false⟩, ⟨"b", .integer, false⟩], "id",
   [[("id", .int 1), ("age", .int 20), ("b", .int 2)],
    [("id", .int 2), ("age", .int 10), ("b", .null)]], 3⟩

/-- A well-formed three-column table with two rows, for the projection and
delete witnesses. -/
def exT9 : Table :=
  ⟨"t9", [⟨"id", .integer, true⟩, ⟨"name", .text, false⟩, ⟨"age", .integer, false⟩], "id",
   [[("id", .int 1), ("name", .str "Alice"), ("age", .int 20)],
    [("id", .int 2), ("name", .str "Bob"), ("age", .int 17)]], 3⟩

/-- An empty two-column table, for the insert witnesses. -/
def exT6 : Table :=
  ⟨"t6", [⟨"id", .integer, true⟩, ⟨"age", .integer, false⟩], "id", [], 1⟩

/-- Single-row variant of `exT8` on which every atomic condition of the
conjunction witness evaluates without error. -/
def exT8w : Table :=
  ⟨"t8w", [⟨"id", .integer, true⟩, ⟨"age", .integer, false⟩, ⟨"b", .integer, false⟩], "id",
   [[("id", .int 1), ("age", .int 20), ("b", .int 2)]], 2⟩

/-- The table `exT9` after deleting its under-18 row. -/
def exT9del : Table :=
  ⟨"t9", [⟨"id", .integer, true⟩, ⟨"name", .text, false⟩, ⟨"age", .integer, false⟩], "id",
   [[("id", .int 1), ("name", .str "Alice"), ("age", .int 20)]], 3⟩

/-- Successor table of the `claim6` witness insert. -/
def exT6b : Table :=
  ⟨"t6", [⟨"id", .integer, true⟩, ⟨"age", .integer, false⟩], "id",
   [[("id", .int 5), ("age", .null)]], 2⟩

instance (t : Table) : Decidable (NoDupPK t) := by
  unfold NoDupPK
  infer_instance

instance (t : Table) : Decidable (ValidSchema t) := by
  unfold ValidSchema
  infer_instance

instance (t : Table) : Decidable (WellFormedRows t) := by
  unfold WellFormedRows
  infer_instance

/-! ## Theorems -/

/-- `ordHolds` for `<>` is the negation of `ordHolds` for `=`. -/
theorem ordHolds_ne_eq (o : Ordering) : ordHolds .ne o = !ordHolds .eq o := by
  cases o <;> rfl

/-- Integer `==` agrees with equality read off the three-way comparison. -/
theorem int_beq_cmp3 (a b : Int) : (a == b) = ordHolds .eq (cmp3 a b) := by
  unfold cmp3
  by_cases hlt : a < b
  · simp [hlt, ordHolds]
    omega
  · by_cases heq : a = b
    · simp [hlt, heq, ordHolds]
    · simp [hlt, heq, ordHolds]

/-- `lexCmp` returns `eq` exactly on equal lists. -/
theorem lexCmp_eq_iff (xs ys : List Char) : lexCmp xs ys = .eq ↔ xs = ys := by
  induction xs generalizing ys with
  | nil => cases ys <;> simp [lexCmp]
  | cons a as ih =>
    cases ys with
    | nil => simp [lexCmp]
    | cons b bs =>
      unfold lexCmp
      by_cases hlt : a.toNat < b.toNat
      · have hne : a ≠ b := by
          intro h
          rw [h] at hlt
          omega
        simp [hlt, hne]
      · by_cases heq : a = b
        · simp [hlt, heq, ih]
        · simp [hlt, heq]

/-- String `==` agrees with equality read off the lexicographic comparison. -/
theorem str_beq_lexCmp (s t : String) : (s == t) = ordHolds .eq (lexCmp s.data t.data) := by
  by_cases h : s = t
  · subst h
    have : lexCmp s.data s.data = .eq := (lexCmp_eq_iff _ _).mpr rfl
    simp [this, ordHolds]
  · have hd : s.data ≠ t.data := fun hdata => h (by cases s; cases t; exact congrArg String.mk hdata)
    have : lexCmp s.data t.data ≠ .eq := fun hc => hd ((lexCmp_eq_iff _ _).mp hc)
    cases hc : lexCmp s.data t.data with
    | eq => exact absurd hc this
    | lt => simp [beq_eq_false_iff_ne.mpr h, ordHolds]
    | gt => simp [beq_eq_false_iff_ne.mpr h, ordHolds]

/-- The parse-then-compare pipeline of the source equals the spec-side
comparison semantics `specCompare`, for every row value, operator and
literal. -/
theorem compare_eq_spec (v : Value) (op : CmpOp) (lit : String) :
    pyCompareOp op v (parseCompareValue v lit) = specCompare v op lit := by
  cases v with
  | int n =>
    unfold parseCompareValue specCompare
    cases h : pyParseInt lit with
    | some m =>
      cases op <;>
        simp [pyCompareOp, pyEq, pyRichCmp, int_beq_cmp3, ordHolds_ne_eq]
    | none =>
      cases op <;> simp [pyCompareOp, pyEq, pyRichCmp, crossKind]
  | float f =>
    unfold parseCompareValue specCompare
    cases h : pyParseFloat lit with
    | some g =>
      cases op <;>
        simp [pyCompareOp, pyEq, pyRichCmp, int_beq_cmp3, ordHolds_ne_eq]
    | none =>
      cases op <;> simp [pyCompareOp, pyEq, pyRichCmp, crossKind]
  | str s =>
    unfold parseCompareValue specCompare
    cases op <;>
      simp [pyCompareOp, pyEq, pyRichCmp, str_beq_lexCmp, ordHolds_ne_eq]
  | null =>
    unfold parseCompareValue specCompare
    cases op <;> simp [pyCompareOp, pyEq, pyRichCmp, crossKind]

/-- Reduction of `evaluate_condition` on a condition that parses as a
comparison: no ` LIKE ` occurrence, and `findOp` produced a two-part split. -/
theorem eval_cond_cmp (row : Row) (cond : String) (op : CmpOp) (a b : String)
    (hlike : containsS " LIKE " (pyStrip cond) = false)
    (hfind : findOp (pyStrip cond) opPriority = some (op, [a, b])) :
    evaluate_condition row cond =
      match lookupV row (pyStrip a) with
      | none => Except.error (.unknownColumn (pyStrip a))
      | some rowValue =>
        pyCompareOp op rowValue (parseCompareValue rowValue (stripQuotes (pyStrip b))) := by
  unfold evaluate_condition
  simp only [hlike, Bool.false_eq_true, if_false, hfind]

/-- Claim C3 (failing input): under the spec, every non-wildcard pattern
character matches only itself, so `LIKE a.c` must not match the value
`abc`; the code splices the pattern into a regular expression without
escaping, so the literal `.` matches any character and the value `abc`
matches.  (The second conjunct records that a matching of the pattern in
which `.` is literal would have to equate the two strings, which differ.) -/
theorem claim3_like_dot_wildcard :
    evaluate_condition [("name", Value.str "abc")] "name LIKE a.c" = .ok true ∧
    ("abc" : String) ≠ "a.c" := by
  constructor
  · decide
  · decide

/-- Claim C4, as amended: the operator list is tried in the priority order
`>=, <=, <>, =, >, <`; for a condition that parses as `col op literal`
with `col` present in the row, the evaluation equals the spec-side
semantics `specCompare`: the literal is parsed by the numeric kind of the
row value, a successful parse compares numerically, a text row value
compares as raw text, and a failed parse or a null row value makes `=`
false and `<>` true while ordering operators raise a host-level TypeError. -/
theorem claim4_comparison_semantics :
    opPriority = [CmpOp.ge, CmpOp.le, CmpOp.ne, CmpOp.eq, CmpOp.gt, CmpOp.lt] ∧
    ∀ (row : Row) (cond : String) (op : CmpOp) (a b : String) (v : Value),
      containsS " LIKE " (pyStrip cond) = false →
      findOp (pyStrip cond) opPriority = some (op, [a, b]) →
      lookupV row (pyStrip a) = some v →
      evaluate_condition row cond = specCompare v op (stripQuotes (pyStrip b)) := by
  refine ⟨rfl, ?_⟩
  intro row cond op a b v hlike hfind hv
  rw [eval_cond_cmp row cond op a b hlike hfind, hv]
  exact compare_eq_spec v op (stripQuotes (pyStrip b))

/-- Claim C4 (counterexample to the claim as stated): for the row value
`5` (an int) and the unparsable literal `abc`, the claim prescribes a raw
text comparison, which yields false (`"5" < "abc"` lexicographically);
the code instead raises the host-level TypeError. -/
theorem claim4_counterexample :
    evaluate_condition [("age", Value.int 5)] "age > abc" = .error .pyTypeError ∧
    ordHolds CmpOp.gt (lexCmp (intToStr 5).data ("abc" : String).data) = false := by
  constructor
  · decide
  · decide

/-- Claim C4 witness: a concrete instantiation of the amended theorem at
the condition `age >= 4` over a row with `age = 5`. -/
theorem claim4_witness :
    containsS " LIKE " (pyStrip "age >= 4") = false ∧
    findOp (pyStrip "age >= 4") opPriority = some (CmpOp.ge, ["age", "4"]) ∧
    lookupV [("age", Value.int 5)] (pyStrip "age") = some (Value.int 5) ∧
    evaluate_condition [("age", Value.int 5)] "age >= 4" =
      specCompare (Value.int 5) CmpOp.ge (stripQuotes (pyStrip "4")) :=
  ⟨by decide, by decide, by decide,
   claim4_comparison_semantics.2 [("age", Value.int 5)] "age >= 4" CmpOp.ge "age" "4"
     (Value.int 5) (by decide) (by decide) (by decide)⟩

/-- Claim C10: an ordering comparison (`>`, `<`, `>=`, `<=`) whose row
value is null does not produce a boolean: the literal falls back to raw
text, and Python ordering between `None` and a string raises the
host-level TypeError, an error outside the declared error kinds. -/
theorem claim10_null_ordering (row : Row) (cond : String) (op : CmpOp) (a b : String)
    (hlike : containsS " LIKE " (pyStrip cond) = false)
    (hfind : findOp (pyStrip cond) opPriority = some (op, [a, b]))
    (hnull : lookupV row (pyStrip a) = some Value.null)
    (hop : op = .gt ∨ op = .lt ∨ op = .ge ∨ op = .le) :
    evaluate_condition row cond = .error .pyTypeError := by
  rw [eval_cond_cmp row cond op a b hlike hfind, hnull]
  rcases hop with h | h | h | h <;> subst h <;> rfl

/-- Claim C10 witness: the condition `age > 5` over a row whose `age` is
null aborts with the modelled TypeError. -/
theorem claim10_witness :
    containsS " LIKE " (pyStrip "age > 5") = false ∧
    findOp (pyStrip "age > 5") opPriority = some (CmpOp.gt, ["age", "5"]) ∧
    lookupV [("age", Value.null)] (pyStrip "age") = some Value.null ∧
    evaluate_condition [("age", Value.null)] "age > 5" = .error .pyTypeError :=
  ⟨by decide, by decide, by decide,
   claim10_null_ordering [("age", Value.null)] "age > 5" CmpOp.gt "age" "5"
     (by decide) (by decide) (by decide) (Or.inl rfl)⟩

/-- INTEGER accepts exactly the int kind. -/
theorem typeOk_integer (v : Value) : typeOk .integer v = isIntV v := by cases v <;> rfl

/-- REAL accepts exactly the int and float kinds. -/
theorem typeOk_real (v : Value) : typeOk .real v = (isIntV v || isFloatV v) := by
  cases v <;> rfl

/-- TEXT accepts exactly the str kind. -/
theorem typeOk_text (v : Value) : typeOk .text v = isStrV v := by cases v <;> rfl

/-- A null value is always accepted. -/
theorem acceptedPair_null (t : Table) (k : String) : acceptedPair t (k, Value.null) :=
  Or.inl rfl

/-- `acceptedPair` restated through the `typeOk` table of the source. -/
theorem acceptedPair_iff (t : Table) (p : String × Value) :
    acceptedPair t p ↔
      (p.2 = Value.null ∨ colType t p.1 = none ∨
        ∃ dt, colType t p.1 = some dt ∧ typeOk dt p.2 = true) := by
  unfold acceptedPair
  constructor
  · rintro (h | h | ⟨h, h2⟩ | ⟨h, h2⟩ | ⟨h, h2⟩)
    · exact Or.inl h
    · exact Or.inr (Or.inl h)
    · exact Or.inr (Or.inr ⟨_, h, by rw [typeOk_integer]; exact h2⟩)
    · exact Or.inr (Or.inr ⟨_, h, by rw [typeOk_real]; exact h2⟩)
    · exact Or.inr (Or.inr ⟨_, h, by rw [typeOk_text]; exact h2⟩)
  · rintro (h | h | ⟨dt, h, h2⟩)
    · exact Or.inl h
    · exact Or.inr (Or.inl h)
    · cases dt with
      | integer => exact Or.inr (Or.inr (Or.inl ⟨h, by rw [typeOk_integer] at h2; exact h2⟩))
      | text =>
        refine Or.inr (Or.inr (Or.inr (Or.inr ⟨h, ?_⟩)))
        rw [typeOk_text] at h2; exact h2
      | real =>
        refine Or.inr (Or.inr (Or.inr (Or.inl ⟨h, ?_⟩)))
        rw [typeOk_real] at h2; exact h2

/-- A pair that reaches the mismatch branch is not accepted. -/
theorem not_acceptedPair (t : Table) (k : String) (v : Value) (dt : DType)
    (hnull : v ≠ Value.null) (hcol : colType t k = some dt) (hok : typeOk dt v = false) :
    ¬ acceptedPair t (k, v) := by
  rw [acceptedPair_iff]
  rintro (h | h | ⟨dt2, h2, h3⟩)
  · exact hnull h
  · rw [hcol] at h; cases h
  · rw [hcol] at h2
    cases h2
    rw [h3] at hok
    cases hok

/-- Validation succeeds exactly when every supplied pair is accepted. -/
theorem validate_types_ok_iff (t : Table) (pairs : List (String × Value)) :
    validate_types t pairs = .ok () ↔ ∀ p ∈ pairs, acceptedPair t p := by
  induction pairs with
  | nil => simp [validate_types]
  | cons p rest ih =>
    obtain ⟨k, v⟩ := p
    simp only [List.mem_cons, forall_eq_or_imp]
    cases v with
    | null =>
      show validate_types t rest = .ok () ↔ _
      simp [ih, acceptedPair_null]
    | int n =>
      show (match colType t k with
            | none => validate_types t rest
            | some dt => if typeOk dt (Value.int n) then validate_types t rest
                         else .error (.typeMismatch k)) = .ok () ↔ _
      cases hcol : colType t k with
      | none =>
        have hacc : acceptedPair t (k, Value.int n) := Or.inr (Or.inl hcol)
        simp [ih, hacc]
      | some dt =>
        cases hok : typeOk dt (Value.int n) with
        | true =>
          have hacc : acceptedPair t (k, Value.int n) :=
            (acceptedPair_iff t _).mpr (Or.inr (Or.inr ⟨dt, hcol, hok⟩))
          simp [hok, ih, hacc]
        | false =>
          have hacc := not_acceptedPair t k (Value.int n) dt (by simp) hcol hok
          simp [hok, hacc]
    | float f =>
      show (match colType t k with
            | none => validate_types t rest
            | some dt => if typeOk dt (Value.float f) then validate_types t rest
                         else .error (.typeMismatch k)) = .ok () ↔ _
      cases hcol : colType t k with
      | none =>
        have hacc : acceptedPair t (k, Value.float f) := Or.inr (Or.inl hcol)
        simp [ih, hacc]
      | some dt =>
        cases hok : typeOk dt (Value.float f) with
        | true =>
          have hacc : acceptedPair t (k, Value.float f) :=
            (acceptedPair_iff t _).mpr (Or.inr (Or.inr ⟨dt, hcol, hok⟩))
          simp [hok, ih, hacc]
        | false =>
          have hacc := not_acceptedPair t k (Value.float f) dt (by simp) hcol hok
          simp [hok, hacc]
    | str s =>
      show (match colType t k with
            | none => validate_types t rest
            | some dt => if typeOk dt (Value.str s) then validate_types t rest
                         else .error (.typeMismatch k)) = .ok () ↔ _
      cases hcol : colType t k with
      | none =>
        have hacc : acceptedPair t (k, Value.str s) := Or.inr (Or.inl hcol)
        simp [ih, hacc]
      | some dt =>
        cases hok : typeOk dt (Value.str s) with
        | true =>
          have hacc : acceptedPair t (k, Value.str s) :=
            (acceptedPair_iff t _).mpr (Or.inr (Or.inr ⟨dt, hcol, hok⟩))
          simp [hok, ih, hacc]
        | false =>
          have hacc := not_acceptedPair t k (Value.str s) dt (by simp) hcol hok
          simp [hok, hacc]

/-- A validation error is a `typeMismatch` naming a supplied, rejected pair. -/
theorem validate_types_error (t : Table) (pairs : List (String × Value)) (e : DbError) :
    validate_types t pairs = .error e →
    ∃ k v, (k, v) ∈ pairs ∧ e = .typeMismatch k ∧ ¬ acceptedPair t (k, v) := by
  induction pairs with
  | nil => intro h; cases h
  | cons p rest ih =>
    obtain ⟨k, v⟩ := p
    intro h
    cases v with
    | null =>
      obtain ⟨k2, v2, hmem, he, hacc⟩ := ih h
      exact ⟨k2, v2, List.mem_cons_of_mem _ hmem, he, hacc⟩
    | int n =>
      revert h
      show (match colType t k with
            | none => validate_types t rest
            | some dt => if typeOk dt (Value.int n) then validate_types t rest
                         else .error (.typeMismatch k)) = .error e → _
      cases hcol : colType t k with
      | none =>
        intro h
        obtain ⟨k2, v2, hmem, he, hacc⟩ := ih h
        exact ⟨k2, v2, List.mem_cons_of_mem _ hmem, he, hacc⟩
      | some dt =>
        intro h
        change (if typeOk dt (Value.int n) = true then validate_types t rest
                else Except.error (DbError.typeMismatch k)) = Except.error e at h
        cases hok : typeOk dt (Value.int n) with
        | true =>
          rw [if_pos hok] at h
          obtain ⟨k2, v2, hmem, he, hacc⟩ := ih h
          exact ⟨k2, v2, List.mem_cons_of_mem _ hmem, he, hacc⟩
        | false =>
          rw [if_neg (by rw [hok]; exact Bool.false_ne_true)] at h
          cases h
          exact ⟨k, Value.int n, List.mem_cons_self _ _, rfl,
                 not_acceptedPair t k (Value.int n) dt (by simp) hcol hok⟩
    | float f =>
      revert h
      show (match colType t k with
            | none => validate_types t rest
            | some dt => if typeOk dt (Value.float f) then validate_types t rest
                         else .error (.typeMismatch k)) = .error e → _
      cases hcol : colType t k with
      | none =>
        intro h
        obtain ⟨k2, v2, hmem, he, hacc⟩ := ih h
        exact ⟨k2, v2, List.mem_cons_of_mem _ hmem, he, hacc⟩
      | some dt =>
        intro h
        change (if typeOk dt (Value.float f) = true then validate_types t rest
                else Except.error (DbError.typeMismatch k)) = Except.error e at h
        cases hok : typeOk dt (Value.float f) with
        | true =>
          rw [if_pos hok] at h
          obtain ⟨k2, v2, hmem, he, hacc⟩ := ih h
          exact ⟨k2, v2, List.mem_cons_of_mem _ hmem, he, hacc⟩
        | false =>
          rw [if_neg (by rw [hok]; exact Bool.false_ne_true)] at h
          cases h
          exact ⟨k, Value.float f, List.mem_cons_self _ _, rfl,
                 not_acceptedPair t k (Value.float f) dt (by simp) hcol hok⟩
    | str s =>
      revert h
      show (match colType t k with
            | none => validate_types t rest
            | some dt => if typeOk dt (Value.str s) then validate_types t rest
                         else .error (.typeMismatch k)) = .error e → _
      cases hcol : colType t k with
      | none =>
        intro h
        obtain ⟨k2, v2, hmem, he, hacc⟩ := ih h
        exact ⟨k2, v2, List.mem_cons_of_mem _ hmem, he, hacc⟩
      | some dt =>
        intro h
        change (if typeOk dt (Value.str s) = true then validate_types t rest
                else Except.error (DbError.typeMismatch k)) = Except.error e at h
        cases hok : typeOk dt (Value.str s) with
        | true =>
          rw [if_pos hok] at h
          obtain ⟨k2, v2, hmem, he, hacc⟩ := ih h
          exact ⟨k2, v2, List.mem_cons_of_mem _ hmem, he, hacc⟩
        | false =>
          rw [if_neg (by rw [hok]; exact Bool.false_ne_true)] at h
          cases h
          exact ⟨k, Value.str s, List.mem_cons_self _ _, rfl,
                 not_acceptedPair t k (Value.str s) dt (by simp) hcol hok⟩

/-- Claim C5: type validation (shared by insert and update) succeeds exactly
when every supplied pair with a non-null value matches its declared column
type — INTEGER takes only ints, REAL ints or floats, TEXT only strings,
null always passes — and any failure is a `typeMismatch` error naming a
supplied column whose pair was rejected. -/
theorem claim5_type_validation (t : Table) (pairs : List (String × Value)) :
    (validate_types t pairs = .ok () ↔ ∀ p ∈ pairs, acceptedPair t p) ∧
    (∀ e, validate_types t pairs = .error e →
      ∃ k v, (k, v) ∈ pairs ∧ e = .typeMismatch k ∧ ¬ acceptedPair t (k, v)) :=
  ⟨validate_types_ok_iff t pairs, fun e => validate_types_error t pairs e⟩

/-- Claim C5 witness: a concrete mismatch (an int supplied for the TEXT
column `name`) is reported as `typeMismatch "name"`, and the valid pairs
of the same table validate successfully. -/
theorem claim5_witness :
    validate_types exT1 [("name", Value.int 7)] = .error (.typeMismatch "name") ∧
    (∃ k v, (k, v) ∈ [("name", Value.int 7)] ∧
      DbError.typeMismatch "name" = .typeMismatch k ∧ ¬ acceptedPair exT1 (k, v)) ∧
    validate_types exT1 [("id", Value.int 3), ("name", Value.null)] = .ok () :=
  ⟨by decide,
   (claim5_type_validation exT1 [("name", Value.int 7)]).2 (.typeMismatch "name") (by decide),
   (claim5_type_validation exT1 [("id", Value.int 3), ("name", Value.null)]).1.mpr (by decide)⟩

/-- A failing insert leaves the table exactly as it was (the raise happens
before the append). -/
theorem insert_error_eq (t : Table) (values : Row) (e : DbError) (t2 : Table)
    (h : insert t values = (.error e, t2)) : t2 = t := by
  unfold insert at h
  split at h
  · have := congrArg Prod.snd h
    simpa using this.symm
  · split at h
    · have := congrArg Prod.snd h
      simpa using this.symm
    · have := congrArg Prod.fst h
      simp at this

/-- A successful insert implies the validation passed, the uniqueness scan
found no collision, the returned value is the stored primary key, and the
new table appends the materialized row and advances `next_id`. -/
theorem insert_ok_eq (t : Table) (values : Row) (v : Value) (t2 : Table)
    (h : insert t values = (.ok v, t2)) :
    validate_types t (mkInsertRow t values) = .ok () ∧
    t.rows.any (fun r => pyEq (rowPk t.primary_key r)
      (rowPk t.primary_key (mkInsertRow t values))) = false ∧
    v = rowPk t.primary_key (mkInsertRow t values) ∧
    t2 = { t with rows := t.rows ++ [mkInsertRow t values], next_id := t.next_id + 1 } := by
  unfold insert at h
  split at h
  · have := congrArg Prod.fst h
    simp at this
  · next hval =>
    split at h
    · have := congrArg Prod.fst h
      simp at this
    · next hany =>
      have h1 := congrArg Prod.fst h
      have h2 := congrArg Prod.snd h
      simp at h1 h2
      exact ⟨hval, Bool.not_eq_true _ ▸ (by simpa using hany), h1.symm, h2.symm⟩

/-- One insert call preserves primary-key uniqueness of the stored rows. -/
theorem insert_preserves_NoDupPK (t : Table) (values : Row) (h : NoDupPK t) :
    NoDupPK (insert t values).2 := by
  rcases hres : insert t values with ⟨res, t2⟩
  show NoDupPK t2
  cases res with
  | error e => rw [insert_error_eq t values e t2 hres]; exact h
  | ok v =>
    obtain ⟨hval, hany, hv, ht2⟩ := insert_ok_eq t values v t2 hres
    subst ht2
    show (t.rows ++ [mkInsertRow t values]).Pairwise _
    rw [List.pairwise_append]
    refine ⟨h, List.pairwise_singleton _ _, ?_⟩
    intro a ha b hb
    have hb2 : b = mkInsertRow t values := by simpa using hb
    subst hb2
    have := List.any_eq_false.mp hany a ha
    simpa using this

/-- Any sequence of inserts preserves primary-key uniqueness. -/
theorem insertSeq_NoDupPK : ∀ (calls : List Row) (t : Table),
    NoDupPK t → NoDupPK (insertSeq t calls) := by
  intro calls
  induction calls with
  | nil => intro t h; exact h
  | cons vs rest ih => intro t h; exact ih _ (insert_preserves_NoDupPK t vs h)

/-- Claim C1, as amended: along every sequence of inserts no two stored
rows ever share a primary-key value; every failing insert leaves the table
exactly as it was; and an insert whose materialized primary-key value
(supplied or auto-generated) collides with an existing row raises the
unique-violation error, provided type validation of the materialized row
succeeds (a type mismatch in the same call is reported as a type-mismatch
error instead — see the counterexample). -/
theorem claim1_primary_key_uniqueness :
    (∀ (t : Table), NoDupPK t → ∀ calls : List Row, NoDupPK (insertSeq t calls)) ∧
    (∀ (t : Table) (values : Row) (e : DbError) (t2 : Table),
      insert t values = (.error e, t2) → t2 = t) ∧
    (∀ (t : Table) (values : Row),
      validate_types t (mkInsertRow t values) = .ok () →
      (∃ r ∈ t.rows, pyEq (rowPk t.primary_key r)
        (rowPk t.primary_key (mkInsertRow t values)) = true) →
      insert t values = (.error .uniqueViolation, t)) := by
  refine ⟨fun t h calls => insertSeq_NoDupPK calls t h,
          fun t values e t2 h => insert_error_eq t values e t2 h, ?_⟩
  intro t values hval hex
  have hany : t.rows.any (fun r => pyEq (rowPk t.primary_key r)
      (rowPk t.primary_key (mkInsertRow t values))) = true :=
    List.any_eq_true.mpr hex
  unfold insert
  rw [hval]
  simp [hany]

/-- Claim C1 (counterexample to the claim as stated): an insert whose
primary key duplicates the stored row `id = 1` but whose `name` value has
the wrong type raises the type-mismatch error, not the unique-violation
error the claim prescribes (the rows are still left untouched). -/
theorem claim1_counterexample :
    insert exT1 [("id", Value.int 1), ("name", Value.int 7)] =
      (.error (.typeMismatch "name"), exT1) ∧
    (∃ r ∈ exT1.rows, pyEq (rowPk exT1.primary_key r)
      (rowPk exT1.primary_key
        (mkInsertRow exT1 [("id", Value.int 1), ("name", Value.int 7)])) = true) := by
  constructor
  · decide
  · decide

/-- Claim C1 witness: uniqueness after a concrete insert sequence that
contains a rejected duplicate, and a rejected duplicate insert leaving the
concrete table unchanged. -/
theorem claim1_witness :
    NoDupPK (insertSeq exT6 [[("id", Value.int 1)], [("id", Value.int 1)], []]) ∧
    insert exT1 [("id", Value.int 1)] = (.error .uniqueViolation, exT1) :=
  ⟨claim1_primary_key_uniqueness.1 exT6 (by decide) _,
   claim1_primary_key_uniqueness.2.2 exT1 [("id", Value.int 1)] (by decide) (by decide)⟩

/-- Looking up a column's name in a per-column-built association list finds
that column's entry, given distinct column names. -/
theorem lookupV_map_pair (f : Column → Value) :
    ∀ (cols : List Column) (c : Column), (cols.map (·.name)).Nodup → c ∈ cols →
      lookupV (cols.map (fun col => (col.name, f col))) c.name = some (f c) := by
  intro cols
  induction cols with
  | nil => intro c _ hc; cases hc
  | cons d rest ih =>
    intro c hnodup hc
    have hnodup2 : (rest.map (·.name)).Nodup := (List.nodup_cons.mp hnodup).2
    have hdnot : d.name ∉ rest.map (·.name) := (List.nodup_cons.mp hnodup).1
    by_cases hdc : d.name = c.name
    · rcases List.mem_cons.mp hc with h | h
      · subst h
        simp [lookupV, List.find?_cons]
      · exact absurd (hdc ▸ List.mem_map.mpr ⟨c, h, rfl⟩) hdnot
    · have hcr : c ∈ rest := by
        rcases List.mem_cons.mp hc with h | h
        · subst h; exact absurd rfl hdc
        · exact h
      have hstep := ih c hnodup2 hcr
      have hbeq : ((d.name, f d).1 == c.name) = false := by simp [hdc]
      unfold lookupV at hstep ⊢
      rw [List.map_cons, List.find?_cons, hbeq]
      exact hstep

/-- Claim C6: on every successful insert into a schema-consistent table, the
materialized row is appended (preserving insertion order), `next_id`
advances unconditionally — also when the primary key was supplied — the
stored primary-key value is returned, an absent primary key is filled from
`next_id`, a supplied value is stored as given, and absent non-primary
columns are stored as null. -/
theorem claim6_insert_success (t : Table) (values : Row) (v : Value) (t2 : Table)
    (hschema : ValidSchema t) (h : insert t values = (.ok v, t2)) :
    t2.rows = t.rows ++ [mkInsertRow t values] ∧
    t2.next_id = t.next_id + 1 ∧
    v = rowPk t.primary_key (mkInsertRow t values) ∧
    (lookupV values t.primary_key = none → v = Value.int t.next_id) ∧
    (∀ w, lookupV values t.primary_key = some w → v = w) ∧
    (∀ col ∈ t.columns, col.is_primary_key = false → lookupV values col.name = none →
      lookupV (mkInsertRow t values) col.name = some Value.null) ∧
    (∀ col ∈ t.columns, ∀ w, lookupV values col.name = some w →
      lookupV (mkInsertRow t values) col.name = some w) := by
  obtain ⟨hnodup, hpkmem, hflag⟩ := hschema
  obtain ⟨hval, hany, hv, ht2⟩ := insert_ok_eq t values v t2 h
  obtain ⟨c, hcmem, hcname⟩ := List.mem_map.mp hpkmem
  have hlk : lookupV (mkInsertRow t values) t.primary_key = some (insertVal t values c) := by
    rw [← hcname]
    exact lookupV_map_pair _ t.columns c hnodup hcmem
  have hcflag : c.is_primary_key = true := (hflag c hcmem).mpr hcname
  have hvpk : v = insertVal t values c := by
    rw [hv]
    unfold rowPk rowGet
    rw [hlk]
    rfl
  refine ⟨by rw [ht2], by rw [ht2], hv, ?_, ?_, ?_, ?_⟩
  · intro hnone
    rw [hvpk]
    unfold insertVal
    rw [hcflag, if_pos rfl, hcname, hnone]
  · intro w hsome
    rw [hvpk]
    unfold insertVal
    rw [hcflag, if_pos rfl, hcname, hsome]
  · intro col hcol hflagfalse hnone
    unfold mkInsertRow
    rw [lookupV_map_pair _ t.columns col hnodup hcol]
    unfold insertVal
    rw [hflagfalse, if_neg (by simp), hnone]
  · intro col hcol w hsome
    unfold mkInsertRow
    rw [lookupV_map_pair _ t.columns col hnodup hcol]
    unfold insertVal
    cases hfl : col.is_primary_key with
    | true => rw [if_pos rfl, hsome]
    | false => rw [if_neg (by simp), hsome]

/-- Claim C6 witness: inserting an explicitly supplied primary key `5` into
the empty table appends the materialized row, still advances `next_id`, and
returns the supplied key. -/
theorem claim6_witness :
    ValidSchema exT6 ∧
    insert exT6 [("id", Value.int 5)] = (.ok (Value.int 5), exT6b) ∧
    (exT6b.rows = exT6.rows ++ [mkInsertRow exT6 [("id", Value.int 5)]] ∧
     exT6b.next_id = exT6.next_id + 1 ∧
     Value.int 5 = rowPk exT6.primary_key (mkInsertRow exT6 [("id", Value.int 5)]) ∧
     (lookupV [("id", Value.int 5)] exT6.primary_key = none →
       Value.int 5 = Value.int exT6.next_id) ∧
     (∀ w, lookupV [("id", Value.int 5)] exT6.primary_key = some w → Value.int 5 = w) ∧
     (∀ col ∈ exT6.columns, col.is_primary_key = false →
       lookupV [("id", Value.int 5)] col.name = none →
       lookupV (mkInsertRow exT6 [("id", Value.int 5)]) col.name = some Value.null) ∧
     (∀ col ∈ exT6.columns, ∀ w, lookupV [("id", Value.int 5)] col.name = some w →
       lookupV (mkInsertRow exT6 [("id", Value.int 5)]) col.name = some w)) :=
  ⟨by decide, by decide,
   claim6_insert_success exT6 [("id", Value.int 5)] (Value.int 5) exT6b
     (by decide) (by decide)⟩

/-- Claim C2 (counterexample to the claim as stated): updating `n` to `99`
where `n > 5` raises the modelled TypeError at the second row (whose `n` is
null), yet the first row has already been mutated when the error surfaces. -/
theorem claim2_counterexample :
    (update exT2 [("n", Value.int 99)] (some "n > 5")).1 = .error .pyTypeError ∧
    (update exT2 [("n", Value.int 99)] (some "n > 5")).2.rows ≠ exT2.rows ∧
    (update exT2 [("n", Value.int 99)] (some "n > 5")).2.rows =
      [[("id", Value.int 1), ("n", Value.int 99)],
       [("id", Value.int 2), ("n", Value.null)]] := by
  refine ⟨by decide, by decide, by decide⟩

/-- Claim C2, as amended: an update that fails during its validation phase —
an undeclared column among the supplied values, or a type mismatch — leaves
every stored row unmutated, because column-name and type validation fully
complete before any row is touched.  (An error raised later, while
evaluating the condition over the rows, can leave rows matched earlier in
the scan already updated — see the counterexample.) -/
theorem claim2_validation_atomic (t : Table) (values : Row) (wc : Option String) :
    (∀ c, findUndeclared t values = some c →
      update t values wc = (.error (.unknownColumn c), t)) ∧
    (∀ e, findUndeclared t values = none → validate_types t values = .error e →
      update t values wc = (.error e, t)) := by
  constructor
  · intro c hc
    unfold update
    rw [hc]
  · intro e hnone herr
    unfold update
    rw [hnone, herr]

/-- Claim C2 witness: a type-mismatching update against a table with rows
returns the mismatch error and the untouched table. -/
theorem claim2_witness :
    findUndeclared exT2 [("n", Value.str "x")] = none ∧
    validate_types exT2 [("n", Value.str "x")] = .error (.typeMismatch "n") ∧
    update exT2 [("n", Value.str "x")] (some "n > 5") = (.error (.typeMismatch "n"), exT2) :=
  ⟨by decide, by decide,
   (claim2_validation_atomic exT2 [("n", Value.str "x")] (some "n > 5")).2
     (.typeMismatch "n") (by decide) (by decide)⟩

/-- The keep list built by `delete` is exactly the rows whose condition is
false, and the removed count is exactly the number of rows whose condition
is true. -/
theorem keepRows_ok (w : String) : ∀ (rows kept : List Row), keepRows w rows = .ok kept →
    kept = rows.filter (fun r => decide (evaluate_where r w = .ok false)) ∧
    rows.length - kept.length =
      (rows.filter (fun r => decide (evaluate_where r w = .ok true))).length := by
  intro rows
  induction rows with
  | nil =>
    intro kept h
    have hk : kept = [] := by
      have := h.symm
      simpa [keepRows] using this
    subst hk
    exact ⟨rfl, rfl⟩
  | cons r rs ih =>
    intro kept h
    unfold keepRows at h
    cases hev : evaluate_where r w with
    | error e => rw [hev] at h; cases h
    | ok b =>
      rw [hev] at h
      cases hrec : keepRows w rs with
      | error e => rw [hrec] at h; cases h
      | ok rest =>
        rw [hrec] at h
        obtain ⟨ih1, ih2⟩ := ih rest hrec
        have hle : rest.length ≤ rs.length := by
          rw [ih1]
          exact List.length_filter_le _ _
        cases b with
        | true =>
          have hk : kept = rest := by
            have := h
            simp at this
            exact this.symm
          subst hk
          constructor
          · rw [List.filter_cons]
            simp [hev, ih1]
          · rw [List.filter_cons]
            simp [hev]
            omega
        | false =>
          have hk : kept = r :: rest := by
            have := h
            simp at this
            exact this.symm
          subst hk
          constructor
          · rw [List.filter_cons]
            simp [hev, ih1]
          · rw [List.filter_cons]
            simp [hev]
            omega

/-- Claim C7: deleting with no condition removes every row and returns the
prior count; deleting with a condition that evaluates without error removes
exactly the rows on which it is true (keeping the others in their relative
order) and returns the removed count. -/
theorem claim7_delete (t : Table) :
    (delete t none = (.ok t.rows.length, { t with rows := [] })) ∧
    (∀ w n t2, delete t (some w) = (.ok n, t2) →
      t2.rows = t.rows.filter (fun r => decide (evaluate_where r w = .ok false)) ∧
      n = (t.rows.filter (fun r => decide (evaluate_where r w = .ok true))).length ∧
      t2.columns = t.columns ∧ t2.next_id = t.next_id) := by
  constructor
  · rfl
  · intro w n t2 h
    unfold delete at h
    change (match keepRows w t.rows with
            | Except.error e => (Except.error e, t)
            | Except.ok kept =>
              (Except.ok (t.rows.length - kept.length), { t with rows := kept })) =
        (Except.ok n, t2) at h
    cases hk : keepRows w t.rows with
    | error e => rw [hk] at h; cases h
    | ok kept =>
      rw [hk] at h
      obtain ⟨h1, h2⟩ := keepRows_ok w t.rows kept hk
      have hn : t.rows.length - kept.length = n := by
        have := congrArg Prod.fst h
        simpa using this
      have ht : t2 = { t with rows := kept } := by
        have := congrArg Prod.snd h
        simpa using this.symm
      subst ht
      exact ⟨h1, by rw [← hn, h2], rfl, rfl⟩

/-- Claim C7 witness: on the concrete two-row table, the unconditional
delete empties it returning `2`, and `delete "age < 18"` removes exactly
the under-18 row, returning `1` and keeping the other row in place. -/
theorem claim7_witness :
    delete exT9 none = (.ok exT9.rows.length, { exT9 with rows := [] }) ∧
    delete exT9 (some "age < 18") = (.ok 1, exT9del) ∧
    (exT9del.rows =
       exT9.rows.filter (fun r => decide (evaluate_where r "age < 18" = .ok false)) ∧
     1 = (exT9.rows.filter (fun r => decide (evaluate_where r "age < 18" = .ok true))).length ∧
     exT9del.columns = exT9.columns ∧ exT9del.next_id = exT9.next_id) :=
  ⟨(claim7_delete exT9).1, by decide,
   (claim7_delete exT9).2 "age < 18" 1 exT9del (by decide)⟩

/-- Deduplication is the identity on a list of distinct names. -/
theorem dedupFirst_nodup : ∀ (l : List String), l.Nodup → dedupFirst l = l := by
  intro l
  induction l with
  | nil => intro _; rfl
  | cons c rest ih =>
    intro h
    unfold dedupFirst
    rw [ih (List.nodup_cons.mp h).2]
    congr 1
    apply List.filter_eq_self.mpr
    intro d hd
    have hne : d ≠ c := fun hdc => (List.nodup_cons.mp h).1 (hdc ▸ hd)
    simp [hne]

/-- Rebuilding a row from its own key list is the identity, given distinct
keys. -/
theorem rowGet_self : ∀ (r : Row), (r.map Prod.fst).Nodup →
    (r.map Prod.fst).map (fun c => (c, rowGet r c)) = r := by
  intro r
  induction r with
  | nil => intro _; rfl
  | cons p rest ih =>
    obtain ⟨k, v⟩ := p
    intro h
    have h2 : (k :: rest.map Prod.fst).Nodup := by simpa using h
    have hnotin : k ∉ rest.map Prod.fst := (List.nodup_cons.mp h2).1
    simp only [List.map_cons]
    have hk : rowGet ((k, v) :: rest) k = v := by
      unfold rowGet lookupV
      simp [List.find?_cons]
    rw [hk]
    congr 1
    have hcong : ∀ c ∈ rest.map Prod.fst,
        (fun c => (c, rowGet ((k, v) :: rest) c)) c = (fun c => (c, rowGet rest c)) c := by
      intro c hc
      have hkc : (k == c) = false := by
        have : k ≠ c := fun h3 => hnotin (h3 ▸ hc)
        simp [this]
      simp only [Prod.mk.injEq, true_and]
      unfold rowGet lookupV
      rw [List.find?_cons, hkc]
    rw [List.map_congr_left hcong]
    exact ih ((List.nodup_cons.mp h2).2)

/-- The materialized row's keys are the declared column names in order. -/
theorem mkInsertRow_keys (t : Table) (values : Row) :
    (mkInsertRow t values).map Prod.fst = t.columns.map (·.name) := by
  unfold mkInsertRow
  rw [List.map_map]
  rfl

/-- Insert maintains the row-shape invariant assumed by the projection
claim: every stored row keeps exactly the declared columns in declaration
order. -/
theorem insert_preserves_WellFormedRows (t : Table) (values : Row)
    (h : WellFormedRows t) : WellFormedRows (insert t values).2 := by
  rcases hres : insert t values with ⟨res, t2⟩
  show WellFormedRows t2
  cases res with
  | error e => rw [insert_error_eq t values e t2 hres]; exact h
  | ok v =>
    obtain ⟨_, _, _, ht2⟩ := insert_ok_eq t values v t2 hres
    subst ht2
    intro r hr
    rcases List.mem_append.mp hr with h1 | h1
    · exact h r h1
    · have h2 : r = mkInsertRow t values := by simpa using h1
      subst h2
      exact mkInsertRow_keys t values

/-- The declared column names all pass the requested-column validation. -/
theorem firstInvalid_names (t : Table) : firstInvalid t (t.columns.map (·.name)) = none := by
  unfold firstInvalid
  rw [List.find?_eq_none]
  intro c hc
  obtain ⟨col, hmem, hname⟩ := List.mem_map.mp hc
  have hsome : (t.columns.find? (fun col2 => col2.name == c)).isSome :=
    List.find?_isSome.mpr ⟨col, hmem, by simp [hname]⟩
  intro hfalse
  obtain ⟨x, hx⟩ := Option.isSome_iff_exists.mp hsome
  rw [hx] at hfalse
  cases hfalse

/-- Projecting a well-formed row onto the full declared column list is the
identity. -/
theorem projectRow_self (t : Table) (r : Row)
    (hnodup : (t.columns.map (·.name)).Nodup)
    (hr : r.map Prod.fst = t.columns.map (·.name)) :
    projectRow r (t.columns.map (·.name)) = r := by
  unfold projectRow
  rw [dedupFirst_nodup _ hnodup, ← hr]
  exact rowGet_self r (hr ▸ hnodup)

/-- Claim C9: `select(None, None)` on a table with distinct column names and
well-formed rows returns every stored row with every declared column, in
declaration order, in insertion order. -/
theorem claim9_select_all (t : Table)
    (hnodup : (t.columns.map (·.name)).Nodup) (hwf : WellFormedRows t) :
    select t none none = .ok t.rows := by
  unfold select
  show (match firstInvalid t (t.columns.map (·.name)) with
        | some c => Except.error (DbError.unknownColumn c)
        | none =>
          Except.ok (t.rows.map fun r => projectRow r (t.columns.map (·.name)))) =
      Except.ok t.rows
  rw [firstInvalid_names t]
  show Except.ok (t.rows.map fun r => projectRow r (t.columns.map (·.name))) = Except.ok t.rows
  congr 1
  conv_rhs => rw [← List.map_id t.rows]
  apply List.map_congr_left
  intro r hr
  exact projectRow_self t r hnodup (hwf r hr)

/-- Claim C9 witness: the three-column two-row table returns its rows
verbatim. -/
theorem claim9_witness :
    (exT9.columns.map (·.name)).Nodup ∧ WellFormedRows exT9 ∧
    select exT9 none none = .ok exT9.rows :=
  ⟨by decide, by decide, claim9_select_all exT9 (by decide) (by decide)⟩

/-- A one-element conjunction evaluates as its single condition. -/
theorem evalConds_single (row : Row) (c : String) :
    evalConds row [c] = evaluate_condition row c := by
  cases h : evaluate_condition row c with
  | error e => simp [evalConds, h]
  | ok b => cases b <;> simp [evalConds, h]

/-- A two-element conjunction is true exactly when both conditions are. -/
theorem evalConds_pair (row : Row) (c1 c2 : String) :
    evalConds row [c1, c2] = .ok true ↔
      evaluate_condition row c1 = .ok true ∧ evaluate_condition row c2 = .ok true := by
  cases h1 : evaluate_condition row c1 with
  | error e => simp [evalConds, h1]
  | ok b1 =>
    cases b1 with
    | false => simp [evalConds, h1]
    | true =>
      cases h2 : evaluate_condition row c2 with
      | error e => simp [evalConds, h1, h2]
      | ok b2 => cases b2 <;> simp [evalConds, h1, h2]

/-- If a two-element conjunction evaluated to a boolean, its first
condition evaluated to a boolean (the first conjunct is always reached). -/
theorem evalConds_pair_fst (row : Row) (c1 c2 : String) (b : Bool)
    (h : evalConds row [c1, c2] = .ok b) :
    ∃ b1, evaluate_condition row c1 = .ok b1 := by
  cases h1 : evaluate_condition row c1 with
  | error e => simp [evalConds, h1] at h
  | ok b1 => exact ⟨b1, rfl⟩

/-- Every row kept by the filter is a stored row on which the condition is
true. -/
theorem filterRows_mem (w : String) : ∀ (rows l : List Row), filterRows w rows = .ok l →
    ∀ r ∈ l, r ∈ rows ∧ evaluate_where r w = .ok true := by
  intro rows
  induction rows with
  | nil =>
    intro l h r hr
    have hl : l = [] := by simpa [filterRows] using h.symm
    subst hl
    cases hr
  | cons r0 rs ih =>
    intro l h r hr
    unfold filterRows at h
    cases hev : evaluate_where r0 w with
    | error e => rw [hev] at h; cases h
    | ok b =>
      rw [hev] at h
      cases hrec : filterRows w rs with
      | error e => rw [hrec] at h; cases h
      | ok rest =>
        rw [hrec] at h
        have hl : l = if b then r0 :: rest else rest := by simpa using h.symm
        subst hl
        cases b with
        | true =>
          rcases List.mem_cons.mp (by simpa using hr) with h1 | h1
          · subst h1; exact ⟨List.mem_cons_self _ _, hev⟩
          · obtain ⟨ha, hb⟩ := ih rest hrec r h1
            exact ⟨List.mem_cons_of_mem _ ha, hb⟩
        | false =>
          obtain ⟨ha, hb⟩ := ih rest hrec r (by simpa using hr)
          exact ⟨List.mem_cons_of_mem _ ha, hb⟩

/-- Every stored row on which the condition is true is kept by the filter. -/
theorem filterRows_complete (w : String) : ∀ (rows l : List Row), filterRows w rows = .ok l →
    ∀ r ∈ rows, evaluate_where r w = .ok true → r ∈ l := by
  intro rows
  induction rows with
  | nil => intro l _ r hr; cases hr
  | cons r0 rs ih =>
    intro l h r hr htrue
    unfold filterRows at h
    cases hev : evaluate_where r0 w with
    | error e => rw [hev] at h; cases h
    | ok b =>
      rw [hev] at h
      cases hrec : filterRows w rs with
      | error e => rw [hrec] at h; cases h
      | ok rest =>
        rw [hrec] at h
        have hl : l = if b then r0 :: rest else rest := by simpa using h.symm
        subst hl
        rcases List.mem_cons.mp hr with h1 | h1
        · subst h1
          rw [htrue] at hev
          have hb : b = true := by
            have := hev
            simpa using this.symm
          subst hb
          simp
        · have hin : r ∈ rest := ih rest hrec r h1 htrue
          cases b <;> simp [hin]

/-- If every stored row evaluates to a boolean, the filter succeeds. -/
theorem filterRows_total (w : String) : ∀ (rows : List Row),
    (∀ r ∈ rows, ∃ b, evaluate_where r w = .ok b) →
    ∃ l, filterRows w rows = .ok l := by
  intro rows
  induction rows with
  | nil => intro _; exact ⟨[], rfl⟩
  | cons r0 rs ih =>
    intro h
    obtain ⟨b, hb⟩ := h r0 (List.mem_cons_self _ _)
    obtain ⟨rest, hrest⟩ := ih (fun r hr => h r (List.mem_cons_of_mem _ hr))
    refine ⟨if b then r0 :: rest else rest, ?_⟩
    unfold filterRows
    rw [hb, hrest]

/-- A successful filter run means every stored row evaluated to a boolean. -/
theorem filterRows_defined (w : String) : ∀ (rows l : List Row), filterRows w rows = .ok l →
    ∀ r ∈ rows, ∃ b, evaluate_where r w = .ok b := by
  intro rows
  induction rows with
  | nil => intro l _ r hr; cases hr
  | cons r0 rs ih =>
    intro l h r hr
    unfold filterRows at h
    cases hev : evaluate_where r0 w with
    | error e => rw [hev] at h; cases h
    | ok b =>
      rw [hev] at h
      cases hrec : filterRows w rs with
      | error e => rw [hrec] at h; cases h
      | ok rest =>
        rcases List.mem_cons.mp hr with h1 | h1
        · subst h1; exact ⟨b, hev⟩
        · exact ih rest hrec r h1

/-- `select` with a non-empty predicate string runs the row filter. -/
theorem select_some_eq (t : Table) (colsOpt : Option (List String)) (w : String)
    (hw : ¬ w = "") :
    select t colsOpt (some w) =
      match firstInvalid t (resolveCols t colsOpt) with
      | some c => Except.error (DbError.unknownColumn c)
      | none =>
        match filterRows w t.rows with
        | .error e => .error e
        | .ok filtered =>
          .ok (filtered.map (fun r => projectRow r (resolveCols t colsOpt))) := by
  unfold select
  show (match firstInvalid t (resolveCols t colsOpt) with
        | some c => Except.error (DbError.unknownColumn c)
        | none =>
          match (if w = "" then Except.ok t.rows else filterRows w t.rows) with
          | .error e => .error e
          | .ok filtered =>
            .ok (filtered.map (fun r => projectRow r (resolveCols t colsOpt)))) = _
  rw [if_neg hw]

/-- `select` with the empty predicate string performs no filtering (Python
truthiness of the WHERE clause). -/
theorem select_empty_eq (t : Table) (colsOpt : Option (List String)) :
    select t colsOpt (some "") =
      match firstInvalid t (resolveCols t colsOpt) with
      | some c => Except.error (DbError.unknownColumn c)
      | none => .ok (t.rows.map (fun r => projectRow r (resolveCols t colsOpt))) := by
  rfl

/-- Claim C8, as amended: for atomic conditions `c1` and `c2` — conditions
that each split as a single ` AND `-conjunct and whose conjunction splits
back into exactly the two of them — every row returned by
`select(cols, "c1 AND c2")` is also returned by `select(cols, c2)` whenever
that select completes without error, and is returned by `select(cols, c1)`,
which is guaranteed to complete (the first conjunct was evaluated on every
row during the combined select).  (Without the completion proviso the claim
fails: see the counterexample, where the dropped conjunct raises on a row
the conjunction never reaches because of short-circuiting.) -/
theorem claim8_conjunction_monotone (t : Table) (colsOpt : Option (List String))
    (c1 c2 : String) (res res2 : List Row) (p : Row)
    (hsplit : splitAnd (c1 ++ " AND " ++ c2) = [c1, c2])
    (hs1 : splitAnd c1 = [c1]) (hs2 : splitAnd c2 = [c2])
    (hcomb : select t colsOpt (some (c1 ++ " AND " ++ c2)) = .ok res)
    (hp : p ∈ res)
    (h2 : select t colsOpt (some c2) = .ok res2) :
    p ∈ res2 ∧ ∃ res1, select t colsOpt (some c1) = .ok res1 ∧ p ∈ res1 := by
  have hw_comb : ∀ r, evaluate_where r (c1 ++ " AND " ++ c2) = evalConds r [c1, c2] :=
    fun r => by unfold evaluate_where; rw [hsplit]
  have hw1 : ∀ r, evaluate_where r c1 = evaluate_condition r c1 :=
    fun r => by unfold evaluate_where; rw [hs1, evalConds_single]
  have hw2 : ∀ r, evaluate_where r c2 = evaluate_condition r c2 :=
    fun r => by unfold evaluate_where; rw [hs2, evalConds_single]
  have hne : ¬ (c1 ++ " AND " ++ c2) = "" := by
    intro h0
    rw [h0] at hsplit
    have he : splitAnd "" = [""] := rfl
    rw [he] at hsplit
    simp at hsplit
  rw [select_some_eq t colsOpt _ hne] at hcomb
  cases hfi : firstInvalid t (resolveCols t colsOpt) with
  | some c => rw [hfi] at hcomb; cases hcomb
  | none =>
    rw [hfi] at hcomb
    cases hflt : filterRows (c1 ++ " AND " ++ c2) t.rows with
    | error e => rw [hflt] at hcomb; cases hcomb
    | ok fr =>
      rw [hflt] at hcomb
      have hres : res = fr.map (fun r => projectRow r (resolveCols t colsOpt)) := by
        simpa using hcomb.symm
      subst hres
      obtain ⟨r, hrfr, hpr⟩ := List.mem_map.mp hp
      obtain ⟨hrin, hev⟩ := filterRows_mem _ t.rows fr hflt r hrfr
      rw [hw_comb] at hev
      obtain ⟨hev1, hev2⟩ := (evalConds_pair r c1 c2).mp hev
      constructor
      · -- p is in the c2-only result
        by_cases hc2e : c2 = ""
        · subst hc2e
          rw [select_empty_eq, hfi] at h2
          have : res2 = t.rows.map (fun r => projectRow r (resolveCols t colsOpt)) := by
            simpa using h2.symm
          subst this
          exact List.mem_map.mpr ⟨r, hrin, hpr⟩
        · rw [select_some_eq t colsOpt _ hc2e, hfi] at h2
          cases hflt2 : filterRows c2 t.rows with
          | error e => rw [hflt2] at h2; cases h2
          | ok l2 =>
            rw [hflt2] at h2
            have : res2 = l2.map (fun r => projectRow r (resolveCols t colsOpt)) := by
              simpa using h2.symm
            subst this
            have hrl2 : r ∈ l2 :=
              filterRows_complete c2 t.rows l2 hflt2 r hrin (by rw [hw2]; exact hev2)
            exact List.mem_map.mpr ⟨r, hrl2, hpr⟩
      · -- the c1-only select completes and contains p
        by_cases hc1e : c1 = ""
        · subst hc1e
          refine ⟨t.rows.map (fun r => projectRow r (resolveCols t colsOpt)), ?_, ?_⟩
          · rw [select_empty_eq, hfi]
          · exact List.mem_map.mpr ⟨r, hrin, hpr⟩
        · have hdef : ∀ r2 ∈ t.rows, ∃ b, evaluate_where r2 c1 = .ok b := by
            intro r2 hr2
            obtain ⟨b, hb⟩ := filterRows_defined _ t.rows fr hflt r2 hr2
            rw [hw_comb] at hb
            obtain ⟨b1, hb1⟩ := evalConds_pair_fst r2 c1 c2 b hb
            exact ⟨b1, by rw [hw1]; exact hb1⟩
          obtain ⟨l1, hl1⟩ := filterRows_total c1 t.rows hdef
          refine ⟨l1.map (fun r => projectRow r (resolveCols t colsOpt)), ?_, ?_⟩
          · rw [select_some_eq t colsOpt _ hc1e, hfi, hl1]
          · have hrl1 : r ∈ l1 :=
              filterRows_complete c1 t.rows l1 hl1 r hrin (by rw [hw1]; exact hev1)
            exact List.mem_map.mpr ⟨r, hrl1, hpr⟩

/-- Claim C8 (counterexample to the claim as stated): the combined select
returns the first row (the second row fails the first conjunct, so the
second conjunct is never evaluated on it), yet dropping the first conjunct
makes the select raise the modelled TypeError on the second row (null
ordering) and return nothing — the returned row is not in the result set
of `select(cols, c2)`. -/
theorem claim8_counterexample :
    select exT8 none (some "age > 18 AND b > 1") =
      .ok [[("id", Value.int 1), ("age", Value.int 20), ("b", Value.int 2)]] ∧
    select exT8 none (some "b > 1") = .error .pyTypeError := by
  constructor
  · decide
  · decide

/-- Claim C8 witness: on a single-row table where both conjuncts hold, the
row returned by the combined select is in the result of each one-conjunct
select. -/
theorem claim8_witness :
    [("id", Value.int 1), ("age", Value.int 20), ("b", Value.int 2)] ∈
      ([[("id", Value.int 1), ("age", Value.int 20), ("b", Value.int 2)]] : List Row) ∧
    ∃ res1, select exT8w none (some "age > 18") = .ok res1 ∧
      [("id", Value.int 1), ("age", Value.int 20), ("b", Value.int 2)] ∈ res1 :=
  claim8_conjunction_monotone exT8w none "age > 18" "b > 1"
    [[("id", Value.int 1), ("age", Value.int 20), ("b", Value.int 2)]]
    [[("id", Value.int 1), ("age", Value.int 20), ("b", Value.int 2)]]
    [("id", Value.int 1), ("age", Value.int 20), ("b", Value.int 2)]
    (by decide) (by decide) (by decide) (by decide) (by decide) (by decide)

end PesapalDb
